import Mathlib

/-!
Shallow embedding of `xray2link.py`: an Xray configuration is scanned for
clients (`list_all_clients`, `find_client_config`) and a matched client's
context is rendered as a share URL (`create_vless_url`, `create_vmess_url`,
`create_trojan_url`).  JSON dictionaries are modelled as structures whose
fields are `Option`-valued (a missing key is `none`); Python truthiness on
string fields, `str()` rendering of `None`, `urllib.parse.quote` /
`quote_plus` / `urlencode`, `json.dumps(sort_keys=True, separators=(',',':'))`
and `base64.b64encode` are each given as explicit Lean functions.
-/

/-! ## Data model (JSON shapes read by the script) -/

/-- A client record inside `settings.clients`. -/
structure Client where
  id : Option String := none
  email : Option String := none
  password : Option String := none
  alterId : Option Int := none
  flow : Option String := none
  deriving Repr, DecidableEq, Inhabited

/-- The `headers` object inside `wsSettings`. -/
structure WsHeaders where
  host : Option String := none
  deriving Repr, DecidableEq, Inhabited

/-- The `wsSettings` object. -/
structure WsSettings where
  path : Option String := none
  headers : Option WsHeaders := none
  deriving Repr, DecidableEq, Inhabited

/-- The `tlsSettings` / `xtlsSettings` objects. -/
structure SecuritySettings where
  serverName : Option String := none
  fingerprint : Option String := none
  deriving Repr, DecidableEq, Inhabited

/-- The `grpcSettings` object. -/
structure GrpcSettings where
  serviceName : Option String := none
  deriving Repr, DecidableEq, Inhabited

/-- The `streamSettings` object. -/
structure StreamSettings where
  network : Option String := none
  security : Option String := none
  tlsSettings : Option SecuritySettings := none
  xtlsSettings : Option SecuritySettings := none
  wsSettings : Option WsSettings := none
  grpcSettings : Option GrpcSettings := none
  deriving Repr, DecidableEq, Inhabited

/-- The `settings` object of an inbound. -/
structure InboundSettings where
  clients : Option (List Client) := none
  deriving Repr, DecidableEq, Inhabited

/-- One entry of the `inbounds` array. -/
structure Inbound where
  protocol : Option String := none
  port : Option Int := none
  streamSettings : Option StreamSettings := none
  settings : Option InboundSettings := none
  deriving Repr, DecidableEq, Inhabited

/-- The whole configuration document (only `inbounds` is ever read). -/
structure Config where
  inbounds : Option (List Inbound) := none
  deriving Repr, DecidableEq, Inhabited

/-- The dictionary returned by `find_client_config`. -/
structure ClientInfo where
  client_data : Client
  protocol : String
  port : Option Int
  stream_settings : StreamSettings
  deriving Repr, DecidableEq, Inhabited

/-! ## Python-semantics helpers -/

/-- Truthiness of an optional string (`if x:` in Python): present and
non-empty. -/
def truthy : Option String → Bool
  | none => false
  | some s => s ≠ ""

/-- Python `str()` of a value that is a string or `None`. -/
def pyStr : Option String → String
  | none => "None"
  | some s => s

/-- Python `str()` of a value that is an int or `None`. -/
def pyIntStr : Option Int → String
  | none => "None"
  | some i => toString i

/-! ## UTF-8 bytes and percent-encoding (`urllib.parse.quote`,
`quote_plus`, `urlencode`) -/

/-- The UTF-8 bytes of one character (Python `str.encode()` works on these). -/
def utf8Bytes (c : Char) : List Nat :=
  let n := c.toNat
  if n < 0x80 then [n]
  else if n < 0x800 then [0xC0 + n / 0x40, 0x80 + n % 0x40]
  else if n < 0x10000 then
    [0xE0 + n / 0x1000, 0x80 + (n / 0x40) % 0x40, 0x80 + n % 0x40]
  else
    [0xF0 + n / 0x40000, 0x80 + (n / 0x1000) % 0x40,
     0x80 + (n / 0x40) % 0x40, 0x80 + n % 0x40]

/-- The UTF-8 encoding of a string, as a list of byte values. -/
def strBytes (s : String) : List Nat :=
  s.data.flatMap utf8Bytes

/-- Upper-case hexadecimal digit, as used by `quote`'s `%XX` escapes. -/
def hexDigitUpper (n : Nat) : Char :=
  if n < 10 then Char.ofNat (48 + n) else Char.ofNat (55 + n)

/-- Characters never escaped by `urllib.parse.quote` (`_ALWAYS_SAFE`):
ASCII letters, digits, `_`, `.`, `-`, `~`. -/
def alwaysSafeByte (b : Nat) : Bool :=
  (0x30 ≤ b && b ≤ 0x39) || (0x41 ≤ b && b ≤ 0x5A) || (0x61 ≤ b && b ≤ 0x7A) ||
  b == 0x5F || b == 0x2E || b == 0x2D || b == 0x7E

/-- One byte under `quote` with `safe='/'` (the default): safe bytes pass
through, everything else becomes `%XX`. -/
def quoteByte (b : Nat) : List Char :=
  if alwaysSafeByte b || b == 0x2F then [Char.ofNat b]
  else ['%', hexDigitUpper (b / 16), hexDigitUpper (b % 16)]

/-- `urllib.parse.quote(s)` (default `safe='/'`), used for the URL fragment. -/
def pquote (s : String) : String :=
  String.mk ((strBytes s).flatMap quoteByte)

/-- One byte under `quote_plus` with `safe=''`: space becomes `+`, safe
bytes pass through, everything else becomes `%XX`. -/
def quotePlusByte (b : Nat) : List Char :=
  if b == 0x20 then ['+']
  else if alwaysSafeByte b then [Char.ofNat b]
  else ['%', hexDigitUpper (b / 16), hexDigitUpper (b % 16)]

/-- `urllib.parse.quote_plus(s, safe='')`, used by `urlencode` for keys and
values. -/
def quotePlus (s : String) : String :=
  String.mk ((strBytes s).flatMap quotePlusByte)

/-- `urllib.parse.urlencode` over the `params` dict: `str()` is applied to
each value (rendering `None` as `"None"`), keys and values are
`quote_plus`-escaped and joined as `k=v` pairs with `&`. -/
def urlencode (params : List (String × Option String)) : String :=
  String.intercalate "&"
    (params.map (fun kv => quotePlus kv.1 ++ "=" ++ quotePlus (pyStr kv.2)))

/-! ## Percent-decoding and UTF-8 decoding (for round-trip statements) -/

/-- Value of one hexadecimal digit character. -/
def hexVal (c : Char) : Option Nat :=
  if 0x30 ≤ c.toNat ∧ c.toNat ≤ 0x39 then some (c.toNat - 0x30)
  else if 0x41 ≤ c.toNat ∧ c.toNat ≤ 0x46 then some (c.toNat - 55)
  else if 0x61 ≤ c.toNat ∧ c.toNat ≤ 0x66 then some (c.toNat - 87)
  else none

/-- Percent-decode a character sequence to bytes: `%XY` becomes one byte,
any other character contributes its UTF-8 bytes. -/
def unquoteBytes : List Char → Option (List Nat)
  | [] => some []
  | c :: rest =>
    if c = '%' then
      if 2 ≤ rest.length then do
        let hi ← hexVal (rest.getD 0 '0')
        let lo ← hexVal (rest.getD 1 '0')
        let bs ← unquoteBytes (rest.drop 2)
        pure ((16 * hi + lo) :: bs)
      else none
    else (unquoteBytes rest).map (fun bs => utf8Bytes c ++ bs)
termination_by l => l.length
decreasing_by
  all_goals simp only [List.length_cons, List.length_drop]
  all_goals omega

/-- Whether a byte is a UTF-8 continuation byte (`10xxxxxx`). -/
def contByte (b : Nat) : Bool :=
  0x80 ≤ b && b < 0xC0

/-- Decode one UTF-8 character from a lead byte and the following bytes,
returning the character and how many continuation bytes it used. -/
def utf8Step (b : Nat) (rest : List Nat) : Option (Char × Nat) :=
  if b < 0x80 then some (Char.ofNat b, 0)
  else if b < 0xC0 then none
  else if b < 0xE0 then
    if 1 ≤ rest.length ∧ contByte (rest.getD 0 0) then
      some (Char.ofNat ((b - 0xC0) * 0x40 + (rest.getD 0 0 - 0x80)), 1)
    else none
  else if b < 0xF0 then
    if 2 ≤ rest.length ∧ contByte (rest.getD 0 0) ∧ contByte (rest.getD 1 0) then
      some (Char.ofNat ((b - 0xE0) * 0x1000 + (rest.getD 0 0 - 0x80) * 0x40 +
        (rest.getD 1 0 - 0x80)), 2)
    else none
  else if b < 0xF8 then
    if 3 ≤ rest.length ∧ contByte (rest.getD 0 0) ∧ contByte (rest.getD 1 0) ∧
        contByte (rest.getD 2 0) then
      some (Char.ofNat ((b - 0xF0) * 0x40000 + (rest.getD 0 0 - 0x80) * 0x1000 +
        (rest.getD 1 0 - 0x80) * 0x40 + (rest.getD 2 0 - 0x80)), 3)
    else none
  else none

/-- Decode a UTF-8 byte sequence back to characters. -/
def utf8Decode : List Nat → Option (List Char)
  | [] => some []
  | b :: rest =>
    match utf8Step b rest with
    | some (c, k) => (utf8Decode (rest.drop k)).map (fun cs => c :: cs)
    | none => none
termination_by l => l.length
decreasing_by
  simp only [List.length_cons, List.length_drop]
  omega

/-- Percent-decode a string (inverse of `pquote` on its image). -/
def unquote (s : String) : Option String :=
  (unquoteBytes s.data).bind (fun bs => (utf8Decode bs).map String.mk)

/-! ## Base64 (`base64.b64encode`, standard alphabet, with padding) -/

/-- Character of one Base64 sextet. -/
def b64Char (n : Nat) : Char :=
  if n < 26 then Char.ofNat (65 + n)
  else if n < 52 then Char.ofNat (97 + (n - 26))
  else if n < 62 then Char.ofNat (48 + (n - 52))
  else if n = 62 then '+'
  else '/'

/-- Base64-encode a byte sequence (standard alphabet, `=` padding). -/
def b64Encode : List Nat → List Char
  | b0 :: b1 :: b2 :: rest =>
    b64Char (b0 / 4) :: b64Char ((b0 % 4) * 16 + b1 / 16) ::
    b64Char ((b1 % 16) * 4 + b2 / 64) :: b64Char (b2 % 64) :: b64Encode rest
  | [b0, b1] =>
    [b64Char (b0 / 4), b64Char ((b0 % 4) * 16 + b1 / 16), b64Char ((b1 % 16) * 4), '=']
  | [b0] => [b64Char (b0 / 4), b64Char ((b0 % 4) * 16), '=', '=']
  | [] => []

/-- Sextet value of one Base64 character. -/
def b64CharVal (c : Char) : Option Nat :=
  if 65 ≤ c.toNat ∧ c.toNat ≤ 90 then some (c.toNat - 65)
  else if 97 ≤ c.toNat ∧ c.toNat ≤ 122 then some (c.toNat - 71)
  else if 48 ≤ c.toNat ∧ c.toNat ≤ 57 then some (c.toNat + 4)
  else if c = '+' then some 62
  else if c = '/' then some 63
  else none

/-- Decode one Base64 quad (possibly padded) to one, two or three bytes. -/
def b64DecodeQuad (c0 c1 c2 c3 : Char) : Option (List Nat) := do
  let s0 ← b64CharVal c0
  let s1 ← b64CharVal c1
  if c2 = '=' then
    if c3 = '=' then pure [s0 * 4 + s1 / 16] else none
  else do
    let s2 ← b64CharVal c2
    if c3 = '=' then pure [s0 * 4 + s1 / 16, (s1 % 16) * 16 + s2 / 4]
    else do
      let s3 ← b64CharVal c3
      pure [s0 * 4 + s1 / 16, (s1 % 16) * 16 + s2 / 4, (s2 % 4) * 64 + s3]

/-- Base64-decode a character sequence to bytes. -/
def b64Decode : List Char → Option (List Nat)
  | [] => some []
  | c0 :: c1 :: c2 :: c3 :: rest => do
    let q ← b64DecodeQuad c0 c1 c2 c3
    let r ← b64Decode rest
    pure (q ++ r)
  | _ => none

/-! ## JSON values and `json.dumps(sort_keys=True, separators=(',',':'))` -/

/-- JSON values appearing in the vmess payload: strings and `null`. -/
inductive Jval where
  | jnull : Jval
  | jstr : String → Jval
  deriving Repr, DecidableEq, Inhabited

open Jval

/-- `json.dumps` of an optional string (`None` becomes `null`). -/
def optJstr : Option String → Jval
  | none => jnull
  | some s => jstr s

/-- Four lower-case hexadecimal digits, as used by `json.dumps`'s
`\uXXXX` escapes. -/
def hex4 (n : Nat) : List Char :=
  let d := fun k => if k < 10 then Char.ofNat (48 + k) else Char.ofNat (87 + k)
  [d (n / 4096 % 16), d (n / 256 % 16), d (n / 16 % 16), d (n % 16)]

/-- One character under `json.dumps`'s default `ensure_ascii=True` string
escaping: `"` and backslash get short escapes, printable ASCII passes
through, control characters use their short escapes or `\uXXXX`, and
non-ASCII characters are `\uXXXX`-escaped (surrogate pairs above U+FFFF). -/
def jsonEscapeChar (c : Char) : List Char :=
  if c = '"' then ['\\', '"']
  else if c = '\\' then ['\\', '\\']
  else if 0x20 ≤ c.toNat ∧ c.toNat ≤ 0x7E then [c]
  else if c.toNat = 8 then ['\\', 'b']
  else if c.toNat = 9 then ['\\', 't']
  else if c.toNat = 10 then ['\\', 'n']
  else if c.toNat = 12 then ['\\', 'f']
  else if c.toNat = 13 then ['\\', 'r']
  else if c.toNat < 0x10000 then '\\' :: 'u' :: hex4 c.toNat
  else
    ('\\' :: 'u' :: hex4 (0xD800 + (c.toNat - 0x10000) / 0x400)) ++
    ('\\' :: 'u' :: hex4 (0xDC00 + (c.toNat - 0x10000) % 0x400))

/-- A JSON string literal with quotes. -/
def jsonQuote (s : String) : String :=
  "\"" ++ String.mk (s.data.flatMap jsonEscapeChar) ++ "\""

/-- Serialize one JSON value. -/
def dumpJval : Jval → String
  | jnull => "null"
  | jstr s => jsonQuote s

/-- The key/value pairs in sorted-key order (`sort_keys=True`). -/
def sortByKey (l : List (String × Jval)) : List (String × Jval) :=
  List.insertionSort (fun a b => a.1 ≤ b.1) l

/-- `json.dumps(obj, sort_keys=True, separators=(',', ':'))` for an object
with string/null values. -/
def dumps (obj : List (String × Jval)) : String :=
  "\x7b" ++
    String.intercalate ","
      ((sortByKey obj).map (fun kv => jsonQuote kv.1 ++ ":" ++ dumpJval kv.2)) ++
  "\x7d"

/-! ## Client Locator (`list_all_clients`, `find_client_config`) -/

/-- The protocol filter used by both locator functions. -/
def supportedProtocol (p : Option String) : Bool :=
  p == some "vless" || p == some "vmess" || p == some "trojan"

/-- `inbound.get('settings', {}).get('clients', [])`. -/
def clientsOf (ib : Inbound) : List Client :=
  ((ib.settings.getD default).clients).getD []

/-- The `all_emails` list collected by `list_all_clients` before
deduplication and sorting. -/
def collectedEmails (config : Config) : List String :=
  (config.inbounds.getD []).flatMap (fun ib =>
    if supportedProtocol ib.protocol then
      (clientsOf ib).filterMap (fun c =>
        if truthy c.email then some (c.email.getD "") else none)
    else [])

/-- `list_all_clients(config)`: collect the truthy emails of clients in
vless/vmess/trojan inbounds, then `sorted(list(set(all_emails)))`. -/
def list_all_clients (config : Config) : List String :=
  List.insertionSort (fun a b => a ≤ b) (collectedEmails config).dedup

/-- The context dictionary built by `find_client_config` for a matched
client. -/
def mkClientInfo (ib : Inbound) (c : Client) : ClientInfo :=
  { client_data := c
    protocol := (ib.protocol.getD "")
    port := ib.port
    stream_settings := ib.streamSettings.getD default }

/-- The loop of `find_client_config` over the inbounds list. -/
def findClientInInbounds (email : String) : List Inbound → Option ClientInfo
  | [] => none
  | ib :: rest =>
    if supportedProtocol ib.protocol then
      match (clientsOf ib).find? (fun c => c.email == some email) with
      | some c => some (mkClientInfo ib c)
      | none => findClientInInbounds email rest
    else findClientInInbounds email rest

/-- `find_client_config(config, client_email)`: first client in document
order, inside a vless/vmess/trojan inbound, whose `email` equals the
target; `None` when there is no match. -/
def find_client_config (config : Config) (client_email : String) : Option ClientInfo :=
  findClientInInbounds client_email (config.inbounds.getD [])

/-- All client contexts of a configuration in document order (clients of
vless/vmess/trojan inbounds paired with their inbound's protocol, port and
transport). -/
def allContexts (config : Config) : List ClientInfo :=
  (config.inbounds.getD []).flatMap (fun ib =>
    if supportedProtocol ib.protocol then (clientsOf ib).map (mkClientInfo ib)
    else [])

/-- Emails of every client record anywhere in the configuration, with no
protocol filter (used to state what "a client anywhere" means). -/
def allEmailsAnywhere (config : Config) : List String :=
  (config.inbounds.getD []).flatMap (fun ib =>
    (clientsOf ib).filterMap (fun c => c.email))

/-! ## Link encoders -/

/-- `stream_settings.get(f"{security}Settings", {})`, reached only when
`security` is `"tls"` or `"xtls"`. -/
def secSettingsFor (ss : StreamSettings) (security : Option String) : SecuritySettings :=
  if security == some "xtls" then ss.xtlsSettings.getD default
  else ss.tlsSettings.getD default

/-- The `params` dict assembled by `create_vless_url` (lines 71-99),
in insertion order. -/
def vlessParams (ci : ClientInfo) : List (String × Option String) :=
  let ss := ci.stream_settings
  let network := ss.network
  let security := ss.security
  let params : List (String × Option String) := [("type", network)]
  let params := params ++
    (if truthy security && !(security == some "none") then [("security", security)] else [])
  let params := params ++
    (if truthy ci.client_data.flow then [("flow", ci.client_data.flow)] else [])
  let params := params ++
    (if security == some "tls" || security == some "xtls" then
      let s := secSettingsFor ss security
      (if truthy s.serverName then [("sni", s.serverName)] else []) ++
      (if truthy s.fingerprint then [("fp", s.fingerprint)] else [])
    else [])
  let params := params ++
    (if network == some "ws" then
      let ws := ss.wsSettings.getD default
      (if truthy ws.path then [("path", ws.path)] else []) ++
      (if truthy (ws.headers.getD default).host then
        [("host", (ws.headers.getD default).host)] else [])
    else if network == some "grpc" then
      let g := ss.grpcSettings.getD default
      if truthy g.serviceName then [("serviceName", g.serviceName)] else []
    else [])
  params

/-- `create_vless_url(client_info, server_address)`. -/
def create_vless_url (ci : ClientInfo) (server_address : String) : String :=
  let uuid := ci.client_data.id
  let remark := pquote (ci.client_data.email.getD "")
  let url := "vless://" ++ pyStr uuid ++ "@" ++ server_address ++ ":" ++ pyIntStr ci.port
  let params := vlessParams ci
  let url := if params = [] then url else url ++ "?" ++ urlencode params
  url ++ "#" ++ remark

/-- The `tls` field of the vmess payload:
`security if security in ['tls', 'xtls'] else 'none'`. -/
def vmessTls : Option String → String
  | none => "none"
  | some s => if s = "tls" ∨ s = "xtls" then s else "none"

/-- The `share_data` dict assembled by `create_vmess_url` (lines 115-134),
in insertion order. -/
def vmessShareData (ci : ClientInfo) (server_address : String) : List (String × Jval) :=
  let cd := ci.client_data
  let ss := ci.stream_settings
  let network := ss.network
  let share : List (String × Jval) :=
    [("v", jstr "2"),
     ("ps", jstr (cd.email.getD "")),
     ("add", jstr server_address),
     ("port", jstr (pyIntStr ci.port)),
     ("id", optJstr cd.id),
     ("aid", jstr (toString (cd.alterId.getD 0))),
     ("net", optJstr network),
     ("type", jstr "none"),
     ("tls", jstr (vmessTls ss.security))]
  if network == some "ws" then
    let ws := ss.wsSettings.getD default
    share ++ [("path", jstr (ws.path.getD "/")),
              ("host", jstr ((ws.headers.getD default).host.getD server_address))]
  else if network == some "grpc" then
    share ++ [("path", optJstr ((ss.grpcSettings.getD default).serviceName))]
  else share

/-- `create_vmess_url(client_info, server_address)`. -/
def create_vmess_url (ci : ClientInfo) (server_address : String) : String :=
  "vmess://" ++ String.mk (b64Encode (strBytes (dumps (vmessShareData ci server_address))))

/-- The `params` dict assembled by `create_trojan_url` (lines 151-176),
in insertion order. -/
def trojanParams (ci : ClientInfo) : List (String × Option String) :=
  let ss := ci.stream_settings
  let network := ss.network
  let security := ss.security
  let params : List (String × Option String) := []
  let params := params ++
    (if truthy security && (security == some "tls" || security == some "xtls") then
      let s := secSettingsFor ss security
      [("security", security)] ++
      (if truthy s.serverName then [("sni", s.serverName)] else []) ++
      (if truthy s.fingerprint then [("fp", s.fingerprint)] else [])
    else [])
  let params := params ++
    (if truthy network then [("type", network)] else [])
  let params := params ++
    (if network == some "ws" then
      let ws := ss.wsSettings.getD default
      (if truthy ws.path then [("path", ws.path)] else []) ++
      (if truthy (ws.headers.getD default).host then
        [("host", (ws.headers.getD default).host)] else [])
    else if network == some "grpc" then
      let g := ss.grpcSettings.getD default
      if truthy g.serviceName then [("serviceName", g.serviceName)] else []
    else [])
  params

/-- `create_trojan_url(client_info, server_address)`. -/
def create_trojan_url (ci : ClientInfo) (server_address : String) : String :=
  let password := ci.client_data.password
  let remark := pquote (ci.client_data.email.getD "")
  let url := "trojan://" ++ pyStr password ++ "@" ++ server_address ++ ":" ++ pyIntStr ci.port
  let params := trojanParams ci
  let url := if params = [] then url else url ++ "?" ++ urlencode params
  url ++ "#" ++ remark

/-! ## Order instances for key sorting -/

instance : IsTotal (String × Jval) (fun a b => a.1 ≤ b.1) :=
  ⟨fun a b => le_total a.1 b.1⟩

instance : IsTrans (String × Jval) (fun a b => a.1 ≤ b.1) :=
  ⟨fun _ _ _ h h2 => le_trans h h2⟩

/-! ## Concrete configurations used to instantiate the theorems -/

/-- The inbound of the spec's end-to-end example. -/
def exampleInbound : Inbound :=
  { protocol := some "vless"
    port := some 443
    streamSettings := some
      { network := some "ws"
        security := some "tls"
        tlsSettings := some { serverName := some "example.com" }
        wsSettings := some { path := some "/ray", headers := some { host := some "example.com" } } }
    settings := some
      { clients := some
          [{ id := some "11111111-1111-1111-1111-111111111111", email := some "alice" }] } }

/-- The configuration of the spec's end-to-end example. -/
def exampleConfig : Config := { inbounds := some [exampleInbound] }

/-- The client context `find_client_config` produces for `alice` in the
example configuration. -/
def exampleClientInfo : ClientInfo :=
  { client_data := { id := some "11111111-1111-1111-1111-111111111111", email := some "alice" }
    protocol := "vless"
    port := some 443
    stream_settings :=
      { network := some "ws"
        security := some "tls"
        tlsSettings := some { serverName := some "example.com" }
        wsSettings := some { path := some "/ray", headers := some { host := some "example.com" } } } }

/-- A configuration where the email `bob` appears in two different inbounds. -/
def dupConfig : Config :=
  { inbounds := some
      [{ protocol := some "vless"
         port := some 443
         streamSettings := some { network := some "tcp" }
         settings := some { clients := some [{ id := some "uuid-1", email := some "bob" }] } },
       { protocol := some "trojan"
         port := some 8443
         streamSettings := some { network := some "tcp" }
         settings := some { clients := some [{ password := some "pw-2", email := some "bob" }] } }] }

/-- The context of the first `bob` (document order) in `dupConfig`. -/
def dupCtx1 : ClientInfo :=
  { client_data := { id := some "uuid-1", email := some "bob" }
    protocol := "vless"
    port := some 443
    stream_settings := { network := some "tcp" } }

/-- The context of the second `bob` in `dupConfig`. -/
def dupCtx2 : ClientInfo :=
  { client_data := { password := some "pw-2", email := some "bob" }
    protocol := "trojan"
    port := some 8443
    stream_settings := { network := some "tcp" } }

/-- A configuration whose only client sits in an inbound with an
unsupported protocol. -/
def unsupportedConfig : Config :=
  { inbounds := some
      [{ protocol := some "socks"
         settings := some { clients := some [{ email := some "bob" }] } }] }

/-- A context with no security configured (for the omission rule). -/
def plainClientInfo : ClientInfo :=
  { client_data := { id := some "uuid-3", email := some "joe" }
    protocol := "vless"
    port := some 80
    stream_settings := { network := some "tcp" } }

/-- A ws context with no `wsSettings` (for the vmess defaults). -/
def wsClientInfo : ClientInfo :=
  { client_data := { id := some "uuid-4", email := some "kim" }
    protocol := "vmess"
    port := some 8080
    stream_settings := { network := some "ws" } }

/-- A grpc context with no `grpcSettings` (for the vmess null path). -/
def grpcClientInfo : ClientInfo :=
  { client_data := { id := some "uuid-5", email := some "lee" }
    protocol := "vmess"
    port := some 8081
    stream_settings := { network := some "grpc" } }

/-- A context with every optional field missing. -/
def bareClientInfo : ClientInfo :=
  { client_data := {}
    protocol := "vless"
    port := none
    stream_settings := {} }

/-! ## Helper lemmas: characters, UTF-8 and percent-encoding -/

theorem charToNat_ofNat {n : Nat} (h : n < 0xD800) : (Char.ofNat n).toNat = n := by
  simp [Char.ofNat, Char.toNat, Nat.isValidChar, h, Char.ofNatAux, UInt32.toNat]

theorem char_toNat_lt (c : Char) : c.toNat < 0x110000 := by
  have h := c.valid
  rcases h with h | h
  · exact Nat.lt_trans h (by norm_num)
  · exact h.2

theorem utf8Bytes_lt (c : Char) : ∀ b ∈ utf8Bytes c, b < 256 := by
  intro b hb
  have hc := char_toNat_lt c
  simp only [utf8Bytes] at hb
  split at hb <;> [skip; split at hb] <;> [skip; skip; split at hb] <;>
    simp only [List.mem_cons, List.mem_singleton, List.not_mem_nil, or_false] at hb <;>
    rcases hb with hb | hb | hb | hb <;> omega

theorem strBytes_lt (s : String) : ∀ b ∈ strBytes s, b < 256 := by
  intro b hb
  simp only [strBytes, List.mem_flatMap] at hb
  obtain ⟨c, _, hbc⟩ := hb
  exact utf8Bytes_lt c b hbc

theorem utf8Decode_utf8Bytes_append (c : Char) (bs : List Nat) :
    utf8Decode (utf8Bytes c ++ bs) = (utf8Decode bs).map (fun cs => c :: cs) := by
  have hc := char_toNat_lt c
  by_cases h1 : c.toNat < 0x80
  · rw [show utf8Bytes c = [c.toNat] by simp [utf8Bytes, h1]]
    have hstep : utf8Step c.toNat bs = some (c, 0) := by
      simp only [utf8Step]
      rw [if_pos h1, Char.ofNat_toNat]
    simp [utf8Decode, hstep]
  · by_cases h2 : c.toNat < 0x800
    · rw [show utf8Bytes c = [0xC0 + c.toNat / 0x40, 0x80 + c.toNat % 0x40] by
        simp [utf8Bytes, h1, h2]]
      have hstep : utf8Step (0xC0 + c.toNat / 0x40) ((0x80 + c.toNat % 0x40) :: bs) =
          some (c, 1) := by
        simp only [utf8Step, List.getD_cons_zero, List.length_cons]
        rw [if_neg (by omega), if_neg (by omega), if_pos (by omega),
          if_pos ⟨by omega, by simp [contByte]; omega⟩]
        rw [show (0xC0 + c.toNat / 0x40 - 0xC0) * 0x40 + (0x80 + c.toNat % 0x40 - 0x80) =
          c.toNat by omega, Char.ofNat_toNat]
      simp [utf8Decode, hstep]
    · by_cases h3 : c.toNat < 0x10000
      · rw [show utf8Bytes c =
            [0xE0 + c.toNat / 0x1000, 0x80 + c.toNat / 0x40 % 0x40, 0x80 + c.toNat % 0x40] by
          simp [utf8Bytes, h1, h2, h3]]
        have hstep : utf8Step (0xE0 + c.toNat / 0x1000)
            ((0x80 + c.toNat / 0x40 % 0x40) :: (0x80 + c.toNat % 0x40) :: bs) =
            some (c, 2) := by
          simp only [utf8Step, List.getD_cons_zero, List.getD_cons_succ, List.length_cons]
          rw [if_neg (by omega), if_neg (by omega), if_neg (by omega), if_pos (by omega),
            if_pos ⟨by omega, by simp [contByte]; omega, by simp [contByte]; omega⟩]
          rw [show (0xE0 + c.toNat / 0x1000 - 0xE0) * 0x1000 +
            (0x80 + c.toNat / 0x40 % 0x40 - 0x80) * 0x40 + (0x80 + c.toNat % 0x40 - 0x80) =
            c.toNat by omega, Char.ofNat_toNat]
        simp [utf8Decode, hstep]
      · rw [show utf8Bytes c =
            [0xF0 + c.toNat / 0x40000, 0x80 + c.toNat / 0x1000 % 0x40,
             0x80 + c.toNat / 0x40 % 0x40, 0x80 + c.toNat % 0x40] by
          simp [utf8Bytes, h1, h2, h3]]
        have hstep : utf8Step (0xF0 + c.toNat / 0x40000)
            ((0x80 + c.toNat / 0x1000 % 0x40) :: (0x80 + c.toNat / 0x40 % 0x40) ::
              (0x80 + c.toNat % 0x40) :: bs) = some (c, 3) := by
          simp only [utf8Step, List.getD_cons_zero, List.getD_cons_succ, List.length_cons]
          rw [if_neg (by omega), if_neg (by omega), if_neg (by omega), if_neg (by omega),
            if_pos (by omega),
            if_pos ⟨by omega, by simp [contByte]; omega, by simp [contByte]; omega,
              by simp [contByte]; omega⟩]
          rw [show (0xF0 + c.toNat / 0x40000 - 0xF0) * 0x40000 +
            (0x80 + c.toNat / 0x1000 % 0x40 - 0x80) * 0x1000 +
            (0x80 + c.toNat / 0x40 % 0x40 - 0x80) * 0x40 + (0x80 + c.toNat % 0x40 - 0x80) =
            c.toNat by omega, Char.ofNat_toNat]
        simp [utf8Decode, hstep]

theorem utf8Decode_flatMap (l : List Char) :
    utf8Decode (l.flatMap utf8Bytes) = some l := by
  induction l with
  | nil => simp [utf8Decode]
  | cons c rest ih => rw [List.flatMap_cons, utf8Decode_utf8Bytes_append, ih]; rfl

theorem utf8Decode_strBytes (s : String) : utf8Decode (strBytes s) = some s.data :=
  utf8Decode_flatMap s.data

theorem hexVal_hexDigitUpper : ∀ n, n < 16 → hexVal (hexDigitUpper n) = some n := by
  decide

theorem alwaysSafeByte_range {b : Nat} (h : alwaysSafeByte b || b == 0x2F) :
    b < 0x80 ∧ b ≠ 0x25 := by
  simp only [alwaysSafeByte, Bool.or_eq_true, Bool.and_eq_true, beq_iff_eq,
    decide_eq_true_eq] at h
  omega

theorem charOfNat_ne_percent {b : Nat} (hb : b < 0x80) (hne : b ≠ 0x25) :
    ¬(Char.ofNat b = '%') := by
  intro h
  have h2 := congrArg Char.toNat h
  rw [charToNat_ofNat (by omega)] at h2
  rw [show ('%').toNat = 37 from rfl] at h2
  omega

theorem unquoteBytes_quoteBytes (bs : List Nat) (h : ∀ b ∈ bs, b < 256) :
    unquoteBytes (bs.flatMap quoteByte) = some bs := by
  induction bs with
  | nil => simp [unquoteBytes]
  | cons b rest ih =>
    have hb : b < 256 := h b (by simp)
    have ihr := ih (fun x hx => h x (by simp [hx]))
    rw [List.flatMap_cons]
    by_cases hsafe : alwaysSafeByte b || b == 0x2F
    · rw [show quoteByte b = [Char.ofNat b] by simp [quoteByte, hsafe]]
      obtain ⟨hlt, hne⟩ := alwaysSafeByte_range hsafe
      rw [List.cons_append, List.nil_append, unquoteBytes]
      rw [if_neg (charOfNat_ne_percent hlt hne), ihr]
      rw [show utf8Bytes (Char.ofNat b) = [b] by
        simp [utf8Bytes, charToNat_ofNat (show b < 0xD800 by omega), hlt]]
      rfl
    · rw [show quoteByte b = ['%', hexDigitUpper (b / 16), hexDigitUpper (b % 16)] by
        simp [quoteByte, hsafe]]
      rw [List.cons_append, List.cons_append, List.cons_append, List.nil_append,
        unquoteBytes]
      rw [if_pos rfl, if_pos (by simp)]
      simp only [List.getD_cons_zero, List.getD_cons_succ, List.drop_succ_cons,
        List.drop_zero]
      rw [hexVal_hexDigitUpper (b / 16) (by omega), hexVal_hexDigitUpper (b % 16) (by omega),
        ihr]
      simp only [Option.bind_eq_bind, Option.some_bind]
      rw [show 16 * (b / 16) + b % 16 = b by omega]
      rfl

theorem unquote_pquote (s : String) : unquote (pquote s) = some s := by
  rw [unquote, pquote]
  rw [show (String.mk ((strBytes s).flatMap quoteByte)).data = (strBytes s).flatMap quoteByte
    from rfl]
  rw [unquoteBytes_quoteBytes (strBytes s) (strBytes_lt s)]
  simp only [Option.some_bind]
  rw [utf8Decode_strBytes]
  rfl

theorem b64CharVal_b64Char : ∀ n, n < 64 → b64CharVal (b64Char n) = some n := by
  decide

theorem b64Char_ne_pad : ∀ n, n < 64 → ¬(b64Char n = '=') := by
  decide

theorem b64Decode_b64Encode (bs : List Nat) (h : ∀ b ∈ bs, b < 256) :
    b64Decode (b64Encode bs) = some bs := by
  induction bs using b64Encode.induct with
  | case1 b0 b1 b2 rest ih =>
    have h0 : b0 < 256 := h b0 (by simp)
    have h1 : b1 < 256 := h b1 (by simp)
    have h2 : b2 < 256 := h b2 (by simp)
    have ihr := ih (fun x hx => h x (by simp [hx]))
    rw [b64Encode, b64Decode]
    rw [show b64DecodeQuad (b64Char (b0 / 4)) (b64Char ((b0 % 4) * 16 + b1 / 16))
        (b64Char ((b1 % 16) * 4 + b2 / 64)) (b64Char (b2 % 64)) =
        some [b0, b1, b2] by
      rw [b64DecodeQuad]
      rw [b64CharVal_b64Char (b0 / 4) (by omega),
        b64CharVal_b64Char ((b0 % 4) * 16 + b1 / 16) (by omega)]
      simp only [Option.bind_eq_bind, Option.some_bind]
      rw [if_neg (b64Char_ne_pad ((b1 % 16) * 4 + b2 / 64) (by omega))]
      rw [b64CharVal_b64Char ((b1 % 16) * 4 + b2 / 64) (by omega)]
      simp only [Option.some_bind]
      rw [if_neg (b64Char_ne_pad (b2 % 64) (by omega))]
      rw [b64CharVal_b64Char (b2 % 64) (by omega)]
      simp only [Option.some_bind]
      have e0 : b0 / 4 * 4 + ((b0 % 4) * 16 + b1 / 16) / 16 = b0 := by omega
      have e1 : ((b0 % 4) * 16 + b1 / 16) % 16 * 16 + ((b1 % 16) * 4 + b2 / 64) / 4 = b1 := by
        omega
      have e2 : ((b1 % 16) * 4 + b2 / 64) % 4 * 64 + b2 % 64 = b2 := by omega
      rw [e0, e1, e2]
      rfl]
    rw [ihr]
    rfl
  | case2 b0 b1 =>
    have h0 : b0 < 256 := h b0 (by simp)
    have h1 : b1 < 256 := h b1 (by simp)
    rw [b64Encode, b64Decode]
    rw [show b64DecodeQuad (b64Char (b0 / 4)) (b64Char ((b0 % 4) * 16 + b1 / 16))
        (b64Char ((b1 % 16) * 4)) '=' = some [b0, b1] by
      rw [b64DecodeQuad]
      rw [b64CharVal_b64Char (b0 / 4) (by omega),
        b64CharVal_b64Char ((b0 % 4) * 16 + b1 / 16) (by omega)]
      simp only [Option.bind_eq_bind, Option.some_bind]
      rw [if_neg (b64Char_ne_pad ((b1 % 16) * 4) (by omega))]
      rw [b64CharVal_b64Char ((b1 % 16) * 4) (by omega)]
      simp only [Option.some_bind]
      simp only [if_true]
      have e0 : b0 / 4 * 4 + ((b0 % 4) * 16 + b1 / 16) / 16 = b0 := by omega
      have e1 : ((b0 % 4) * 16 + b1 / 16) % 16 * 16 + (b1 % 16) * 4 / 4 = b1 := by omega
      rw [e0, e1]
      rfl]
    rw [show b64Decode [] = some [] from rfl]
    rfl
  | case3 b0 =>
    have h0 : b0 < 256 := h b0 (by simp)
    rw [b64Encode, b64Decode]
    rw [show b64DecodeQuad (b64Char (b0 / 4)) (b64Char ((b0 % 4) * 16)) '=' '=' =
        some [b0] by
      rw [b64DecodeQuad]
      rw [b64CharVal_b64Char (b0 / 4) (by omega), b64CharVal_b64Char ((b0 % 4) * 16) (by omega)]
      simp only [Option.bind_eq_bind, Option.some_bind]
      simp only [if_true]
      have e0 : b0 / 4 * 4 + (b0 % 4) * 16 / 16 = b0 := by omega
      rw [e0]
      rfl]
    rw [show b64Decode [] = some [] from rfl]
    rfl
  | case4 => rfl

theorem find?_eq_head?_filter {α : Type} (p : α → Bool) (l : List α) :
    l.find? p = (l.filter p).head? := by
  induction l with
  | nil => rfl
  | cons a rest ih =>
    by_cases hp : p a
    · rw [List.find?_cons_of_pos _ hp, List.filter_cons_of_pos hp]
      rfl
    · rw [List.find?_cons_of_neg _ hp, List.filter_cons_of_neg hp]
      exact ih

theorem find_client_config_eq (config : Config) (email : String) :
    find_client_config config email =
      (allContexts config).find? (fun ci => ci.client_data.email == some email) := by
  rw [find_client_config, allContexts]
  induction config.inbounds.getD [] with
  | nil => rfl
  | cons ib rest ih =>
    rw [List.flatMap_cons, List.find?_append, findClientInInbounds]
    by_cases hs : supportedProtocol ib.protocol
    · rw [if_pos hs, if_pos hs]
      rw [List.find?_map]
      rw [show ((fun ci : ClientInfo => ci.client_data.email == some email) ∘ mkClientInfo ib) =
        (fun c : Client => c.email == some email) from rfl]
      cases hfind : (clientsOf ib).find? (fun c => c.email == some email) with
      | none => simpa only [Option.map_none, Option.none_or] using ih
      | some c => rfl
    · rw [if_neg hs, if_neg hs]
      simpa only [List.find?_nil, Option.none_or] using ih

theorem sortByKey_keys_sorted (l : List (String × Jval)) :
    List.Sorted (fun a b : String => a ≤ b) ((sortByKey l).map Prod.fst) := by
  have h := List.sorted_insertionSort (fun a b : String × Jval => a.1 ≤ b.1) l
  exact List.pairwise_map.mpr h

theorem mem_list_all_clients_iff (config : Config) (e : String) :
    e ∈ list_all_clients config ↔ e ∈ collectedEmails config :=
  ((List.perm_insertionSort _ _).mem_iff).trans List.mem_dedup

theorem mem_collectedEmails_context {config : Config} {e : String}
    (he : e ∈ collectedEmails config) :
    ∃ ci ∈ allContexts config, ci.client_data.email = some e := by
  simp only [collectedEmails, List.mem_flatMap] at he
  obtain ⟨ib, hib, hmem⟩ := he
  by_cases hs : supportedProtocol ib.protocol
  · rw [if_pos hs] at hmem
    simp only [List.mem_filterMap] at hmem
    obtain ⟨c, hc, heq⟩ := hmem
    by_cases ht : truthy c.email
    · rw [if_pos ht] at heq
      have hemail : c.email = some e := by
        cases hmm : c.email with
        | none => rw [hmm] at ht; simp [truthy] at ht
        | some s =>
          rw [hmm] at heq
          simp only [Option.getD_some, Option.some.injEq] at heq
          exact congrArg some heq
      refine ⟨mkClientInfo ib c, ?_, hemail⟩
      rw [allContexts]
      simp only [List.mem_flatMap]
      exact ⟨ib, hib, by rw [if_pos hs]; exact List.mem_map_of_mem _ hc⟩
    · rw [if_neg ht] at heq
      cases heq
  · rw [if_neg hs] at hmem
    cases hmem

theorem appendChain5_cons {α : Type} (x : α) (A B C D : List α) :
    ((([x] ++ A) ++ B) ++ C) ++ D = x :: (((A ++ B) ++ C) ++ D) := by
  simp

theorem cons_self_head_tail {α : Type} {l : List α} {x : α} (h : l.head? = some x) :
    l = x :: l.tail := by
  cases l <;> simp_all

theorem vlessParams_head? (ci : ClientInfo) :
    (vlessParams ci).head? = some ("type", ci.stream_settings.network) := by
  simp only [vlessParams]
  rw [appendChain5_cons]
  rfl

theorem vlessParams_cons (ci : ClientInfo) :
    vlessParams ci = ("type", ci.stream_settings.network) :: (vlessParams ci).tail :=
  cons_self_head_tail (vlessParams_head? ci)

/-! ## Claim theorems -/

open Jval

/-- C1: for the configuration with exactly the spec's example inbound
(vless on port 443, ws+tls, serverName/Host `example.com`, path `/ray`,
client `alice`), the locator returns that client's context and the vless
encoder applied to it with server address `1.2.3.4` returns exactly the
expected URL, with the query parameters in insertion order and `/` in the
path percent-encoded as `%2F`. -/
theorem claim_C1 :
    find_client_config exampleConfig "alice" = some exampleClientInfo ∧
    create_vless_url exampleClientInfo "1.2.3.4" =
      "vless://11111111-1111-1111-1111-111111111111@1.2.3.4:443?type=ws&security=tls&sni=example.com&path=%2Fray&host=example.com#alice" := by
  constructor
  · rfl
  · rfl

/-- C2: for every client context and server address, the vmess encoder's
output is `vmess://` followed by the padded Base64 encoding of the
compact JSON serialization of the share object with keys sorted;
Base64-decoding the payload recovers exactly the UTF-8 bytes of that JSON
text, UTF-8 decoding those bytes recovers the JSON text, the serialized
key order is sorted, every field of the share object matches the source
client/inbound fields (`v`, `ps`, `add`, `port`, `id`, `aid`, `net`,
`type`, `tls`), and the encoding is deterministic. -/
theorem claim_C2 (ci : ClientInfo) (addr : String) :
    create_vmess_url ci addr =
      "vmess://" ++ String.mk (b64Encode (strBytes (dumps (vmessShareData ci addr)))) ∧
    b64Decode (b64Encode (strBytes (dumps (vmessShareData ci addr)))) =
      some (strBytes (dumps (vmessShareData ci addr))) ∧
    utf8Decode (strBytes (dumps (vmessShareData ci addr))) =
      some (dumps (vmessShareData ci addr)).data ∧
    List.Sorted (fun a b : String => a ≤ b) ((sortByKey (vmessShareData ci addr)).map Prod.fst) ∧
    (vmessShareData ci addr).lookup "v" = some (jstr "2") ∧
    (vmessShareData ci addr).lookup "ps" = some (jstr (ci.client_data.email.getD "")) ∧
    (vmessShareData ci addr).lookup "add" = some (jstr addr) ∧
    (vmessShareData ci addr).lookup "port" = some (jstr (pyIntStr ci.port)) ∧
    (vmessShareData ci addr).lookup "id" = some (optJstr ci.client_data.id) ∧
    (vmessShareData ci addr).lookup "aid" =
      some (jstr (toString (ci.client_data.alterId.getD 0))) ∧
    (vmessShareData ci addr).lookup "net" = some (optJstr ci.stream_settings.network) ∧
    (vmessShareData ci addr).lookup "type" = some (jstr "none") ∧
    (vmessShareData ci addr).lookup "tls" = some (jstr (vmessTls ci.stream_settings.security)) ∧
    create_vmess_url ci addr = create_vmess_url ci addr := by
  refine ⟨rfl, b64Decode_b64Encode _ (strBytes_lt _), utf8Decode_strBytes _,
    sortByKey_keys_sorted _, ?_, ?_, ?_, ?_, ?_, ?_, ?_, ?_, ?_, rfl⟩ <;>
    (simp only [vmessShareData]; split <;> (try split) <;> rfl)

/-- C3: for every client context whose transport has no `security` field
or whose security equals `"none"`, the vless and trojan parameter dicts
contain no `security` key, and the vmess payload's `tls` field is the
string `"none"`. -/
theorem claim_C3 (ci : ClientInfo) (addr : String)
    (h : ci.stream_settings.security = none ∨ ci.stream_settings.security = some "none") :
    "security" ∉ (vlessParams ci).map Prod.fst ∧
    "security" ∉ (trojanParams ci).map Prod.fst ∧
    (vmessShareData ci addr).lookup "tls" = some (jstr "none") := by
  refine ⟨?_, ?_, ?_⟩
  · rcases h with h | h <;>
      simp [vlessParams, h, truthy] <;>
      (repeat' split) <;> simp_all
  · rcases h with h | h <;>
      simp [trojanParams, h, truthy] <;>
      (repeat' split) <;> simp_all
  · simp only [vmessShareData]
    rcases h with h | h <;> rw [h] <;> split <;> (try split) <;> rfl

/-- Witness for C3 at a concrete security-free context. -/
theorem claim_C3_witness :
    "security" ∉ (vlessParams plainClientInfo).map Prod.fst ∧
    "security" ∉ (trojanParams plainClientInfo).map Prod.fst ∧
    (vmessShareData plainClientInfo "1.2.3.4").lookup "tls" = some (jstr "none") :=
  claim_C3 plainClientInfo "1.2.3.4" (Or.inl rfl)

/-- C4: `find_client_config` returns exactly the head of the
document-order list of matching client contexts: the unique match when
there is exactly one, `none` when there is none, and the first match in
document order when the email is duplicated. -/
theorem claim_C4 (config : Config) (email : String) :
    (∀ ci, (allContexts config).filter (fun x => x.client_data.email == some email) = [ci] →
      find_client_config config email = some ci) ∧
    ((allContexts config).filter (fun x => x.client_data.email == some email) = [] →
      find_client_config config email = none) ∧
    (∀ ci rest,
      (allContexts config).filter (fun x => x.client_data.email == some email) = ci :: rest →
      find_client_config config email = some ci) := by
  have h := (find_client_config_eq config email).trans (find?_eq_head?_filter _ _)
  refine ⟨?_, ?_, ?_⟩
  · intro ci hf
    rw [h, hf]
    rfl
  · intro hf
    rw [h, hf]
    rfl
  · intro ci rest hf
    rw [h, hf]
    rfl

/-- Witness for C4: in a configuration where `bob` appears in two
inbounds, lookup returns the first occurrence; an absent email yields
`none`. -/
theorem claim_C4_witness :
    find_client_config dupConfig "bob" = some dupCtx1 ∧
    find_client_config dupConfig "nobody" = none := by
  constructor
  · exact (claim_C4 dupConfig "bob").2.2 dupCtx1 [dupCtx2] (by rfl)
  · exact (claim_C4 dupConfig "nobody").2.1 (by rfl)

/-- C5: `list_all_clients` is sorted (lexicographically), duplicate-free,
contains exactly the collected truthy client emails, and running it twice
on the same configuration yields identical output. -/
theorem claim_C5 (config : Config) :
    List.Sorted (fun a b : String => a ≤ b) (list_all_clients config) ∧
    (list_all_clients config).Nodup ∧
    (∀ e, e ∈ list_all_clients config ↔ e ∈ collectedEmails config) ∧
    list_all_clients config = list_all_clients config := by
  refine ⟨?_, ?_, fun e => mem_list_all_clients_iff config e, rfl⟩
  · exact List.sorted_insertionSort _ _
  · exact ((List.perm_insertionSort _ _).nodup_iff).mpr (List.nodup_dedup _)

/-- C6: the vless parameter dict always starts with the `type` key
carrying the stored `network` field verbatim (also when it is absent),
so the parameter dict is never empty and the encoded URL always carries
the query string. -/
theorem claim_C6 (ci : ClientInfo) (addr : String) :
    (∃ rest, vlessParams ci = ("type", ci.stream_settings.network) :: rest) ∧
    ("type", ci.stream_settings.network) ∈ vlessParams ci ∧
    create_vless_url ci addr =
      "vless://" ++ pyStr ci.client_data.id ++ "@" ++ addr ++ ":" ++ pyIntStr ci.port ++ "?" ++
        urlencode (vlessParams ci) ++ "#" ++ pquote (ci.client_data.email.getD "") := by
  have hcons := vlessParams_cons ci
  refine ⟨⟨_, hcons⟩, by rw [hcons]; exact List.mem_cons_self _ _, ?_⟩
  simp only [create_vless_url]
  rw [if_neg (show ¬(vlessParams ci = []) by rw [hcons]; simp)]

/-- C7: in the vmess payload, for `ws` the `path` defaults to `/` and
`host` defaults to the server address; for `grpc` the `path` is the
`grpcSettings.serviceName` value with no default, so it is JSON `null`
when `serviceName` is unset. -/
theorem claim_C7 (ci : ClientInfo) (addr : String) :
    (ci.stream_settings.network = some "ws" →
      (vmessShareData ci addr).lookup "path" =
        some (jstr (((ci.stream_settings.wsSettings.getD default).path).getD "/")) ∧
      (vmessShareData ci addr).lookup "host" =
        some (jstr ((((ci.stream_settings.wsSettings.getD default).headers.getD
          default).host).getD addr))) ∧
    (ci.stream_settings.network = some "grpc" →
      (vmessShareData ci addr).lookup "path" =
        some (optJstr ((ci.stream_settings.grpcSettings.getD default).serviceName))) ∧
    (ci.stream_settings.network = some "grpc" →
      (ci.stream_settings.grpcSettings.getD default).serviceName = none →
      (vmessShareData ci addr).lookup "path" = some jnull) := by
  refine ⟨?_, ?_, ?_⟩
  · intro h
    simp only [vmessShareData]
    rw [h]
    exact ⟨rfl, rfl⟩
  · intro h
    simp only [vmessShareData]
    rw [h]
    rfl
  · intro h h2
    simp only [vmessShareData]
    rw [h, h2]
    rfl

/-- Witness for C7 at a ws context with no `wsSettings` and a grpc
context with no `grpcSettings`. -/
theorem claim_C7_witness :
    (vmessShareData wsClientInfo "9.9.9.9").lookup "path" = some (jstr "/") ∧
    (vmessShareData wsClientInfo "9.9.9.9").lookup "host" = some (jstr "9.9.9.9") ∧
    (vmessShareData grpcClientInfo "9.9.9.9").lookup "path" = some jnull := by
  refine ⟨((claim_C7 wsClientInfo "9.9.9.9").1 rfl).1,
    ((claim_C7 wsClientInfo "9.9.9.9").1 rfl).2,
    (claim_C7 grpcClientInfo "9.9.9.9").2.2 rfl rfl⟩

/-- C8: the vless and trojan URLs always end with `#` followed by the
percent-encoded email (even when it is empty), percent-decoding inverts
the encoding on every email string (round-trip), and space and `#`
encode to `%20` and `%23`. -/
theorem claim_C8 (ci : ClientInfo) (addr : String) (e : String) :
    (∃ pre, create_vless_url ci addr = pre ++ "#" ++ pquote (ci.client_data.email.getD "")) ∧
    (∃ pre, create_trojan_url ci addr = pre ++ "#" ++ pquote (ci.client_data.email.getD "")) ∧
    unquote (pquote e) = some e ∧
    pquote " " = "%20" ∧
    pquote "#" = "%23" ∧
    pquote "" = "" := by
  exact ⟨⟨_, rfl⟩, ⟨_, rfl⟩, unquote_pquote e, rfl, rfl, rfl⟩

/-- C9 (amended): every listed email comes from a client that has that
email (clients without an email contribute nothing), a found client's
email always equals the target, and lookup fails exactly when no client
of a vless/vmess/trojan inbound has the requested email. -/
theorem claim_C9 (config : Config) (email : String) :
    (∀ e ∈ list_all_clients config, ∃ ci ∈ allContexts config, ci.client_data.email = some e) ∧
    (∀ ci, find_client_config config email = some ci → ci.client_data.email = some email) ∧
    (find_client_config config email = none ↔
      ∀ ci ∈ allContexts config, ¬(ci.client_data.email = some email)) := by
  refine ⟨?_, ?_, ?_⟩
  · intro e he
    exact mem_collectedEmails_context ((mem_list_all_clients_iff config e).mp he)
  · intro ci hf
    rw [find_client_config_eq] at hf
    have h2 := List.find?_some hf
    simpa [beq_iff_eq] using h2
  · rw [find_client_config_eq, List.find?_eq_none]
    simp only [beq_iff_eq]

/-- Counterexample for C9 as stated: in a configuration whose only
client (email `bob`) sits in a `socks` inbound, lookup for `bob` fails
although a client with that email exists in the configuration. -/
theorem claim_C9_counterexample :
    find_client_config unsupportedConfig "bob" = none ∧
    "bob" ∈ allEmailsAnywhere unsupportedConfig := by
  constructor
  · rfl
  · decide

/-- Witness for C9 (amended) at a concrete configuration. -/
theorem claim_C9_witness :
    (∃ ci ∈ allContexts dupConfig, ci.client_data.email = some "bob") ∧
    dupCtx1.client_data.email = some "bob" := by
  constructor
  · exact (claim_C9 dupConfig "bob").1 "bob" (by decide)
  · exact (claim_C9 dupConfig "bob").2.1 dupCtx1 (by rfl)

/-- C10: the encoders are total on any context; a missing vless id or
trojan password and a missing port are rendered as the literal text
`None` in the URL, a missing vmess id becomes JSON `null`, a missing
port the string `"None"`, and the vmess output is always `vmess://`
followed by a payload. -/
theorem claim_C10 (ci : ClientInfo) (addr : String) :
    (ci.client_data.id = none ∧ ci.port = none →
      ∃ suffix, create_vless_url ci addr = ("vless://None@" ++ addr ++ ":None") ++ suffix) ∧
    (ci.client_data.password = none ∧ ci.port = none →
      ∃ suffix, create_trojan_url ci addr = ("trojan://None@" ++ addr ++ ":None") ++ suffix) ∧
    (ci.client_data.id = none → (vmessShareData ci addr).lookup "id" = some jnull) ∧
    (ci.port = none → (vmessShareData ci addr).lookup "port" = some (jstr "None")) ∧
    (∃ payload, create_vmess_url ci addr = "vmess://" ++ payload) := by
  refine ⟨?_, ?_, ?_, ?_, ⟨_, rfl⟩⟩
  · rintro ⟨h1, h2⟩
    simp only [create_vless_url, h1, h2, pyStr, pyIntStr]
    have base : ("vless://" ++ "None" ++ "@" ++ addr ++ ":" ++ "None" : String) =
        ("vless://None@" ++ addr) ++ ":None" := by
      rw [show ("vless://" ++ "None" ++ "@" : String) = "vless://None@" from rfl]
      rw [String.append_assoc]
      rw [show (":" ++ "None" : String) = ":None" from rfl]
    rw [base]
    split
    · exact ⟨"#" ++ pquote (ci.client_data.email.getD ""), by rw [String.append_assoc]⟩
    · refine ⟨"?" ++ (urlencode (vlessParams ci) ++
        ("#" ++ pquote (ci.client_data.email.getD ""))), ?_⟩
      simp only [String.append_assoc]
  · rintro ⟨h1, h2⟩
    simp only [create_trojan_url, h1, h2, pyStr, pyIntStr]
    have base : ("trojan://" ++ "None" ++ "@" ++ addr ++ ":" ++ "None" : String) =
        ("trojan://None@" ++ addr) ++ ":None" := by
      rw [show ("trojan://" ++ "None" ++ "@" : String) = "trojan://None@" from rfl]
      rw [String.append_assoc]
      rw [show (":" ++ "None" : String) = ":None" from rfl]
    rw [base]
    split
    · exact ⟨"#" ++ pquote (ci.client_data.email.getD ""), by rw [String.append_assoc]⟩
    · refine ⟨"?" ++ (urlencode (trojanParams ci) ++
        ("#" ++ pquote (ci.client_data.email.getD ""))), ?_⟩
      simp only [String.append_assoc]
  · intro h1
    simp only [vmessShareData, h1]
    split <;> (try split) <;> rfl
  · intro h2
    simp only [vmessShareData, h2]
    split <;> (try split) <;> rfl

/-- Witness for C10 at a context with every optional field missing. -/
theorem claim_C10_witness :
    (∃ suffix, create_vless_url bareClientInfo "srv" =
      ("vless://None@" ++ "srv" ++ ":None") ++ suffix) ∧
    (∃ suffix, create_trojan_url bareClientInfo "srv" =
      ("trojan://None@" ++ "srv" ++ ":None") ++ suffix) ∧
    (vmessShareData bareClientInfo "srv").lookup "id" = some jnull ∧
    (vmessShareData bareClientInfo "srv").lookup "port" = some (jstr "None") ∧
    (∃ payload, create_vmess_url bareClientInfo "srv" = "vmess://" ++ payload) := by
  obtain ⟨a, b, c, d, e⟩ := claim_C10 bareClientInfo "srv"
  exact ⟨a ⟨rfl, rfl⟩, b ⟨rfl, rfl⟩, c rfl, d rfl, e⟩
